import Mathlib

/-!
Shallow embedding of the payment_tracker repository.

Source files embedded here:
* `src/utils/paymentGenerator.js` — `findOrderById`, `findProductByName`,
  `findSupplierByName`, `calculatePaymentTasks`, `convertToBookingsFormat`,
  `generatePaymentBookings`;
* `App.vue` (script section) — `addTask`, `addInvoiceLink`, `markAsPaid`;
* `components/NewTaskForm.vue` — `handleSubmit`.

Modelling conventions (used throughout):
* JS numbers are modelled as exact rationals `ℚ`.
* Calendar dates are modelled as epoch-day integers `Int`.  The JS code only
  ever parses a valid ISO date, shifts it by whole days with
  `setDate(getDate() - k)` (which handles month/year rollover), and prints it
  back with `toISOString().split('T')[0]`; on valid dates this is exactly
  subtraction of `k` on the day number.
* `Date.now()` (a millisecond clock) is modelled by an explicit parameter
  `now : Nat`.  One invocation of a generation or creation operation performs
  all of its `Date.now()` calls within far less than a millisecond, so a single
  value per operation is the realistic behaviour of the clock.
* JS strings are `String`; `null` prompt/input results are `Option.none`.
-/

/-- A payment obligation as produced by `calculatePaymentTasks` in
paymentGenerator.js: `{taskType, description, amountDue, dueDate}`. -/
structure PaymentTask where
  taskType : String
  description : String
  amountDue : ℚ
  dueDate : Int
deriving Repr, DecidableEq

/-- JS `String.prototype.includes(pat)` over the character list of the
receiver: `pat` occurs as a contiguous substring. -/
def includesSub (pat : List Char) : List Char → Bool
  | [] => pat.isEmpty
  | c :: cs => pat.isPrefixOf (c :: cs) || includesSub pat cs

/-- One attempt of the regex `marker(\d+)%` anchored at the start of `s`:
the literal `marker`, then a maximal non-empty run of decimal digits, then
the character '%'.  Returns the captured digit run.  (`\d+` is greedy, and
since '%' is not a digit, regex backtracking can never produce a different
match than the maximal digit run.) -/
def matchPctAt (marker s : List Char) : Option (List Char) :=
  if marker.isPrefixOf s then
    let rest := s.drop marker.length
    let ds := rest.takeWhile (fun c => c.isDigit)
    if ds.isEmpty then none
    else if (rest.drop ds.length).head? = some '%' then some ds else none
  else none

/-- JS `String.prototype.match` against the pattern `marker(\d+)%`:
try the pattern at each position left to right and return the first
capture group, `none` when the whole string has no match. -/
def findPercent (marker : List Char) : List Char → Option (List Char)
  | [] => none
  | c :: cs =>
    match matchPctAt marker (c :: cs) with
    | some ds => some ds
    | none => findPercent marker cs

/-- JS `parseInt` applied to a (non-empty) capture of `\d+`: the decimal
value of the digit run. -/
def parseDigits (ds : List Char) : Nat :=
  ds.foldl (fun a c => 10 * a + (c.toNat - 48)) 0

/-- The deposit marker 定金 of the split payment pattern. -/
def depositMk : List Char := "定金".toList

/-- The final-payment marker 尾款 of the split payment pattern. -/
def finalMk : List Char := "尾款".toList

/-- The full-payment marker 全款. -/
def fullMk : List Char := "全款".toList

/-- `calculatePaymentTasks(paymentMethod, totalAmount, dueDate)` from
paymentGenerator.js.  If the method string contains both 定金 and 尾款,
the two percentages are extracted with `/定金(\d+)%/` and `/尾款(\d+)%/`;
when both match, a deposit task (7 days before the reference date) and a
final-payment task (1 day before) are produced, each computing
`totalAmount * (parseInt(pct) / 100)` and embedding the raw capture in its
description; when either regex fails, the branch yields no tasks at all.
Otherwise, if the string contains 全款, one full-amount task due 3 days
before the reference date is produced.  Any other string yields `[]`. -/
def calculatePaymentTasks (paymentMethod : String) (totalAmount : ℚ)
    (dueDate : Int) : List PaymentTask :=
  if includesSub depositMk paymentMethod.toList &&
      includesSub finalMk paymentMethod.toList then
    match findPercent depositMk paymentMethod.toList,
        findPercent finalMk paymentMethod.toList with
    | some dcap, some fcap =>
      [{ taskType := "定金"
         description := "预付" ++ String.mk dcap ++ "%款项"
         amountDue := totalAmount * ((parseDigits dcap : ℚ) / 100)
         dueDate := dueDate - 7 },
       { taskType := "尾款"
         description := "支付剩余" ++ String.mk fcap ++ "%款项"
         amountDue := totalAmount * ((parseDigits fcap : ℚ) / 100)
         dueDate := dueDate - 1 }]
    | _, _ => []
  else if includesSub fullMk paymentMethod.toList then
    [{ taskType := "全款"
       description := "一次性支付全款"
       amountDue := totalAmount
       dueDate := dueDate - 3 }]
  else []

example : (calculatePaymentTasks "定金30%+尾款70%" 1000 20000).map
      (fun t => (t.taskType, t.description, t.dueDate)) =
    [("定金", "预付30%款项", 19993), ("尾款", "支付剩余70%款项", 19999)] := by
  decide

example : (calculatePaymentTasks "全款" 500 100).map
      (fun t => (t.taskType, t.description, t.dueDate)) =
    [("全款", "一次性支付全款", 97)] := by decide

example : calculatePaymentTasks "定金%+尾款50%+全款" 100 0 = [] := by decide

/-- An order record (orders.json): 订单ID, 客户名称, 订单名称, 出发日期
(epoch day), 关联的服务 (comma-delimited service-name list). -/
structure Order where
  orderId : String
  customerName : String
  orderName : String
  departureDate : Int
  services : String
deriving Repr, DecidableEq

/-- A product record (products.json): 服务名称, 供应商名称, 平日单价,
付款方式. -/
structure Product where
  serviceName : String
  supplierName : String
  unitPrice : ℚ
  paymentMethod : String
deriving Repr, DecidableEq

/-- A supplier record (suppliers.json): 供应商名称, 供应商类型. -/
structure Supplier where
  supplierName : String
  supplierType : String
deriving Repr, DecidableEq

/-- A cost item of a generated booking: `{itemName, amount, invoiceSource}`. -/
structure CostItem where
  itemName : String
  amount : ℚ
  invoiceSource : String
deriving Repr, DecidableEq

/-- A payment task as stored on a booking: the expander output plus
`taskId`, `paymentStatus`, `actualPaymentDate`, `invoiceLink`. -/
structure StoredTask where
  taskId : String
  taskType : String
  description : String
  amountDue : ℚ
  dueDate : Int
  paymentStatus : String
  actualPaymentDate : Option Int
  invoiceLink : Option String
deriving Repr, DecidableEq

/-- A booking record as stored in App.vue's `bookings` list.  Bookings
created by `addTask` in App.vue carry no `costItems` / `totalAmount`
properties in the JS object; they are modelled as `[]` and `0`. -/
structure Booking where
  bookingId : String
  supplierName : String
  supplierType : String
  relatedCustomerOrder : String
  bookingStatus : String
  costItems : List CostItem
  totalAmount : ℚ
  paymentTasks : List StoredTask
deriving Repr, DecidableEq

/-- JS `String.prototype.trim()`: strip leading and trailing whitespace
(the ASCII whitespace characters; the further Unicode space characters JS
also strips play no role in this data). -/
def jsTrim (s : String) : String :=
  String.mk (((s.toList.dropWhile Char.isWhitespace).reverse.dropWhile
    Char.isWhitespace).reverse)

/-- JS `String.prototype.split(',')`: cut at every comma; the empty string
yields `[""]`. -/
def splitCommaChars : List Char → List (List Char)
  | [] => [[]]
  | c :: cs =>
    if c = ',' then [] :: splitCommaChars cs
    else
      match splitCommaChars cs with
      | g :: gs => (c :: g) :: gs
      | [] => [[c]]

/-- `order['关联的服务'].split(',')` as a list of strings. -/
def splitComma (s : String) : List String :=
  (splitCommaChars s.toList).map String.mk

example : splitComma "S1,S2" = ["S1", "S2"] := by decide
example : splitComma "" = [""] := by decide
example : splitComma "a,,b" = ["a", "", "b"] := by decide

/-- `findOrderById(orderId, allOrders)` from paymentGenerator.js:
first order whose 订单ID equals `orderId`, `null` when there is none. -/
def findOrderById (orderId : String) (allOrders : List Order) : Option Order :=
  allOrders.find? (fun o => o.orderId == orderId)

/-- `findProductByName(serviceName, allProducts)` from paymentGenerator.js:
first product whose 服务名称 equals `serviceName.trim()`. -/
def findProductByName (serviceName : String) (allProducts : List Product) :
    Option Product :=
  allProducts.find? (fun p => p.serviceName == jsTrim serviceName)

/-- `findSupplierByName(supplierName, allSuppliers)` from
paymentGenerator.js: first supplier with that 供应商名称. -/
def findSupplierByName (supplierName : String) (allSuppliers : List Supplier) :
    Option Supplier :=
  allSuppliers.find? (fun s => s.supplierName == supplierName)

/-- The per-supplier accumulator of `generatePaymentBookings`:
`{ total, items }`. -/
structure Basket where
  total : ℚ
  items : List Product
deriving Repr, DecidableEq

/-- One iteration of the grouping loop of `generatePaymentBookings`: create
the supplier's basket on first sight, then `total += cost` and push the
product.  The JS `supplierCosts` object is modelled as an association list
in key-insertion order, which is how `Object.entries` enumerates it here
(its keys are supplier-name strings, none of them integer-like). -/
def addToBasket (costs : List (String × Basket)) (supplierName : String)
    (p : Product) : List (String × Basket) :=
  if costs.any (fun e => e.1 == supplierName) then
    costs.map (fun e =>
      if e.1 == supplierName then
        (e.1, { total := e.2.total + p.unitPrice, items := e.2.items ++ [p] })
      else e)
  else
    costs ++ [(supplierName, { total := p.unitPrice, items := [p] })]

/-- The grouping loop of `generatePaymentBookings` (step 4): walk the
service names, skip the ones `findProductByName` cannot resolve, and put
each resolved product into its supplier's basket. -/
def buildBaskets (allProducts : List Product) :
    List (String × Basket) → List String → List (String × Basket)
  | costs, [] => costs
  | costs, name :: names =>
    match findProductByName name allProducts with
    | none => buildBaskets allProducts costs names
    | some p => buildBaskets allProducts (addToBasket costs p.supplierName p) names

/-- The task-building inner loop of `convertToBookingsFormat`: attach
`TASK-${now}-${index}-${taskIndex}` identifiers and the initial
status/date/link fields to the expander's tasks for the item at position
`index`, with `taskIndex` counting from `tIdx`. -/
def attachIds (now idx : Nat) : Nat → List PaymentTask → List StoredTask
  | _, [] => []
  | tIdx, t :: ts =>
    { taskId := "TASK-" ++ toString now ++ "-" ++ toString idx ++ "-" ++
        toString tIdx
      taskType := t.taskType
      description := t.description
      amountDue := t.amountDue
      dueDate := t.dueDate
      paymentStatus := "Pending"
      actualPaymentDate := none
      invoiceLink := none } :: attachIds now idx (tIdx + 1) ts

/-- The `data.items.forEach((product, index) => ...)` loop of
`convertToBookingsFormat`: expand every item with its own 付款方式 and
平日单价 against the order's 出发日期, and concatenate the identified
tasks in product-then-task order.  `idx` is the running `index`. -/
def expandBasketTasks (now : Nat) (refDate : Int) :
    Nat → List Product → List StoredTask
  | _, [] => []
  | idx, p :: ps =>
    attachIds now idx 0 (calculatePaymentTasks p.paymentMethod p.unitPrice refDate)
      ++ expandBasketTasks now refDate (idx + 1) ps

/-- The supplier-type lookup of `convertToBookingsFormat`: the supplier's
供应商类型, defaulting to 其他 when the supplier is unknown. -/
def supplierTypeOf (supplierName : String) (allSuppliers : List Supplier) :
    String :=
  match findSupplierByName supplierName allSuppliers with
  | some s => s.supplierType
  | none => "其他"

/-- `convertToBookingsFormat(supplierCosts, orderInfo, allSuppliers)` from
paymentGenerator.js: one booking per supplier basket, in entry order. -/
def convertToBookingsFormat (supplierCosts : List (String × Basket))
    (orderInfo : Order) (allSuppliers : List Supplier) (now : Nat) :
    List Booking :=
  supplierCosts.map (fun e =>
    { bookingId := "BOOK-" ++ toString now ++ "-" ++ e.1
      supplierName := e.1
      supplierType := supplierTypeOf e.1 allSuppliers
      relatedCustomerOrder := orderInfo.orderName
      bookingStatus := "InProgress"
      costItems := e.2.items.map (fun item =>
        { itemName := item.serviceName
          amount := item.unitPrice
          invoiceSource := e.1 })
      totalAmount := e.2.total
      paymentTasks := expandBasketTasks now orderInfo.departureDate 0 e.2.items })

/-- `generatePaymentBookings(orderId, allOrders, allProducts, allSuppliers)`
from paymentGenerator.js: resolve the order (unknown id gives `[]`), split
its 关联的服务 on commas, group the resolvable services into supplier
baskets, and convert the baskets to bookings. -/
def generatePaymentBookings (orderId : String) (allOrders : List Order)
    (allProducts : List Product) (allSuppliers : List Supplier) (now : Nat) :
    List Booking :=
  match findOrderById orderId allOrders with
  | none => []
  | some currentOrder =>
    convertToBookingsFormat
      (buildBaskets allProducts [] (splitComma currentOrder.services))
      currentOrder allSuppliers now

/-- The products a service-name list resolves to, in order, unresolved
names skipped — the contents of step 4's baskets before grouping. -/
def resolveServices (names : List String) (allProducts : List Product) :
    List Product :=
  names.filterMap (fun n => findProductByName n allProducts)

/-- Grouping of an already-resolved product list into supplier baskets:
`buildBaskets` coincides with this composed with `resolveServices`. -/
def groupProducts : List (String × Basket) → List Product → List (String × Basket)
  | costs, [] => costs
  | costs, p :: ps => groupProducts (addToBasket costs p.supplierName p) ps

/-- The expander fields of a stored task (identifier and lifecycle fields
dropped). -/
def taskCore (t : StoredTask) : PaymentTask :=
  { taskType := t.taskType, description := t.description,
    amountDue := t.amountDue, dueDate := t.dueDate }

/-- The data object emitted by NewTaskForm.vue: supplierName, supplierType,
relatedCustomerOrder, description, amountDue, dueDate, taskType.  `none`
models an amount or date input left empty (JS `null` / `''`). -/
structure TaskInput where
  supplierName : String
  supplierType : String
  relatedCustomerOrder : String
  description : String
  amountDue : Option ℚ
  dueDate : Option Int
  taskType : String
deriving Repr, DecidableEq

/-- `booking.paymentTasks.push(newTask)` applied to the first booking whose
`supplierName` matches — the `bookings.value.find(...)` step of `addTask`. -/
def pushTaskToFirst (supplierName : String) (t : StoredTask) :
    List Booking → List Booking
  | [] => []
  | b :: bs =>
    if b.supplierName == supplierName then
      { b with paymentTasks := b.paymentTasks ++ [t] } :: bs
    else b :: pushTaskToFirst supplierName t bs

/-- `addTask(taskData)` from App.vue: find the first booking with the
input's supplier name, or append a fresh booking
`BOOK-${Date.now()}` (status InProgress) when there is none; then append a
new task `TASK-${Date.now()}` with status Pending and null payment
date / invoice link.  `addTask` itself performs no validation; it is only
reached through `handleSubmit`, which guarantees the amount and due date
are present, so the `getD` defaults are never observable. -/
def addTask (taskData : TaskInput) (now : Nat) (bookings : List Booking) :
    List Booking :=
  let newTask : StoredTask :=
    { taskId := "TASK-" ++ toString now
      taskType := taskData.taskType
      description := taskData.description
      amountDue := taskData.amountDue.getD 0
      dueDate := taskData.dueDate.getD 0
      paymentStatus := "Pending"
      actualPaymentDate := none
      invoiceLink := none }
  if bookings.any (fun b => b.supplierName == taskData.supplierName) then
    pushTaskToFirst taskData.supplierName newTask bookings
  else
    bookings ++
      [{ bookingId := "BOOK-" ++ toString now
         supplierName := taskData.supplierName
         supplierType := taskData.supplierType
         relatedCustomerOrder := taskData.relatedCustomerOrder
         bookingStatus := "InProgress"
         costItems := []
         totalAmount := 0
         paymentTasks := [newTask] }]

/-- The markup-level validation of NewTaskForm.vue: the inputs bound to
supplierName, description, amountDue and dueDate all carry the HTML
`required` attribute (the related-order input does not), and the form's
submit event fires only when each of them is non-empty. -/
def requiredOk (i : TaskInput) : Bool :=
  !(i.supplierName == "") && !(i.description == "") &&
    i.amountDue.isSome && i.dueDate.isSome

/-- The explicit guard of `handleSubmit` in NewTaskForm.vue:
`!supplierName || !amountDue || !dueDate` — JS falsiness, so a missing
amount and a zero amount are both rejected. -/
def jsGuardFails (i : TaskInput) : Bool :=
  (i.supplierName == "") ||
    (match i.amountDue with | none => true | some a => a == 0) ||
    i.dueDate.isNone

/-- `handleSubmit` of NewTaskForm.vue together with the form submission it
is attached to: the browser delivers the submit event only when the
markup-level `required` validation passes; the handler then applies its own
guard (alerting and returning without emitting on failure) and otherwise
emits add-task, which App.vue handles with `addTask`. -/
def handleSubmit (i : TaskInput) (now : Nat) (bookings : List Booking) :
    List Booking :=
  if requiredOk i then
    if jsGuardFails i then bookings else addTask i now bookings
  else bookings

/-- First-match task update: the
`booking.paymentTasks.find(t => t.taskId === taskId)` step shared by
`markAsPaid` and `addInvoiceLink` in App.vue, returning `none` when no
task of the list matches. -/
def updateFirstTask (taskId : String) (f : StoredTask → StoredTask) :
    List StoredTask → Option (List StoredTask)
  | [] => none
  | t :: ts =>
    if t.taskId == taskId then some (f t :: ts)
    else
      match updateFirstTask taskId f ts with
      | some ts2 => some (t :: ts2)
      | none => none

/-- The booking scan shared by `markAsPaid` and `addInvoiceLink`: walk the
bookings in order, mutate the first task matching `taskId` (then `break`),
and leave everything untouched when no booking has a match. -/
def updateTaskInBookings (taskId : String) (f : StoredTask → StoredTask) :
    List Booking → List Booking
  | [] => []
  | b :: bs =>
    match updateFirstTask taskId f b.paymentTasks with
    | some ts => { b with paymentTasks := ts } :: bs
    | none => b :: updateTaskInBookings taskId f bs

/-- The mutation `markAsPaid` performs on the task it finds:
`task.paymentStatus = 'Paid'; task.actualPaymentDate = <today>`. -/
def paidUpdate (today : Int) (t : StoredTask) : StoredTask :=
  { t with paymentStatus := "Paid", actualPaymentDate := some today }

/-- The mutation `addInvoiceLink` performs on the task it finds:
`task.invoiceLink = link`. -/
def linkUpdate (l : String) (t : StoredTask) : StoredTask :=
  { t with invoiceLink := some l }

/-- `markAsPaid(taskId)` from App.vue: set the first matching task's
status to Paid and its actual payment date to the current date
(`new Date().toISOString().split('T')[0]`, modelled by `today`). -/
def markAsPaid (taskId : String) (today : Int) (bookings : List Booking) :
    List Booking :=
  updateTaskInBookings taskId (paidUpdate today) bookings

/-- `addInvoiceLink(taskId)` from App.vue: `prompt` for a link (`none`
models cancellation) and, when the result is truthy, set the first
matching task's `invoiceLink`. -/
def addInvoiceLink (taskId : String) (link : Option String)
    (bookings : List Booking) : List Booking :=
  match link with
  | none => bookings
  | some l =>
    if l == "" then bookings
    else updateTaskInBookings taskId (linkUpdate l) bookings

/-- Fixture: a pending stored task used by the lifecycle witnesses. -/
def wTask1 : StoredTask :=
  { taskId := "T1", taskType := "定金", description := "预付30%款项",
    amountDue := 300, dueDate := 40, paymentStatus := "Pending",
    actualPaymentDate := none, invoiceLink := none }

/-- Fixture: a second pending stored task used by the lifecycle witnesses. -/
def wTask2 : StoredTask :=
  { taskId := "T2", taskType := "尾款", description := "支付剩余70%款项",
    amountDue := 700, dueDate := 46, paymentStatus := "Pending",
    actualPaymentDate := none, invoiceLink := none }

/-- Fixture: a booking owning `wTask1` used by the lifecycle witnesses. -/
def wBooking1 : Booking :=
  { bookingId := "BOOK-1-甲", supplierName := "甲", supplierType := "酒店",
    relatedCustomerOrder := "桂林五日游", bookingStatus := "InProgress",
    costItems := [], totalAmount := 300, paymentTasks := [wTask1] }

/-- Fixture: a booking owning `wTask2` used by the lifecycle witnesses. -/
def wBooking2 : Booking :=
  { bookingId := "BOOK-1-乙", supplierName := "乙", supplierType := "导游",
    relatedCustomerOrder := "桂林五日游", bookingStatus := "InProgress",
    costItems := [], totalAmount := 700, paymentTasks := [wTask2] }

/-- Fixture: the order used by the synthesizer witnesses. -/
def wOrder : Order :=
  { orderId := "O1", customerName := "张三", orderName := "桂林五日游",
    departureDate := 100, services := "S1,S2" }

/-- Fixture: first product of the single-supplier witness order. -/
def wProdS1 : Product :=
  { serviceName := "S1", supplierName := "Acme", unitPrice := 1000,
    paymentMethod := "定金30%+尾款70%" }

/-- Fixture: second product of the single-supplier witness order. -/
def wProdS2 : Product :=
  { serviceName := "S2", supplierName := "Acme", unitPrice := 500,
    paymentMethod := "全款" }

/-- Fixture: a full-payment product of supplier 甲, for the identifier
collision input. -/
def wProdU1 : Product :=
  { serviceName := "S1", supplierName := "甲", unitPrice := 100,
    paymentMethod := "全款" }

/-- Fixture: a full-payment product of supplier 乙, for the identifier
collision input. -/
def wProdU2 : Product :=
  { serviceName := "S2", supplierName := "乙", unitPrice := 200,
    paymentMethod := "全款" }

/-- Fixture: an order referencing one known and one unknown service. -/
def wOrderSkip : Order :=
  { orderId := "O1", customerName := "李四", orderName := "阳朔两日游",
    departureDate := 50, services := "S1,NoSuchService" }

/-- A successful match of `marker(\d+)%` anchored at `s` starts with the
marker itself. -/
lemma matchPctAt_isPrefixOf {marker s cap : List Char}
    (h : matchPctAt marker s = some cap) : marker.isPrefixOf s = true := by
  by_contra hc
  rw [Bool.not_eq_true] at hc
  rw [matchPctAt, hc] at h
  simp at h

/-- A string on which `match(/marker(\d+)%/)` succeeds in particular
contains the marker, so it passes the corresponding `includes` test. -/
lemma findPercent_includes {marker cap : List Char} :
    ∀ {s : List Char}, findPercent marker s = some cap →
      includesSub marker s = true := by
  intro s
  induction s with
  | nil => intro h; simp [findPercent] at h
  | cons c cs ih =>
    intro h
    rw [findPercent] at h
    rw [includesSub]
    cases hm : matchPctAt marker (c :: cs) with
    | some ds => simp [matchPctAt_isPrefixOf hm]
    | none =>
      rw [hm] at h
      simp only [Bool.or_eq_true]
      exact Or.inr (ih h)

/-- Evaluation of the split branch of `calculatePaymentTasks`: when both
percentage regexes match, the result is exactly the deposit task and the
final-payment task. -/
lemma calc_split_eval (pm : String) (A : ℚ) (D : Int) (dcap fcap : List Char)
    (hd : findPercent depositMk pm.toList = some dcap)
    (hf : findPercent finalMk pm.toList = some fcap) :
    calculatePaymentTasks pm A D =
      [{ taskType := "定金"
         description := "预付" ++ String.mk dcap ++ "%款项"
         amountDue := A * ((parseDigits dcap : ℚ) / 100)
         dueDate := D - 7 },
       { taskType := "尾款"
         description := "支付剩余" ++ String.mk fcap ++ "%款项"
         amountDue := A * ((parseDigits fcap : ℚ) / 100)
         dueDate := D - 1 }] := by
  have h1 := findPercent_includes hd
  have h2 := findPercent_includes hf
  rw [calculatePaymentTasks, h1, h2, hd, hf]
  rfl

/-- C1: for every payment-method string on which both the deposit regex
定金(\d+)% and the final-payment regex 尾款(\d+)% match (capturing `dcap`
and `fcap`), every total amount `A` and reference date `D`, the expander
returns exactly two tasks in order: a deposit task of amount
`A * (dcap/100)` due 7 days before `D`, then a final-payment task of amount
`A * (fcap/100)` due 1 day before `D`, each description embedding its raw
captured percentage. -/
theorem C1_split_expansion (pm : String) (A : ℚ) (D : Int) (dcap fcap : List Char)
    (hd : findPercent depositMk pm.toList = some dcap)
    (hf : findPercent finalMk pm.toList = some fcap) :
    calculatePaymentTasks pm A D =
      [{ taskType := "定金"
         description := "预付" ++ String.mk dcap ++ "%款项"
         amountDue := A * ((parseDigits dcap : ℚ) / 100)
         dueDate := D - 7 },
       { taskType := "尾款"
         description := "支付剩余" ++ String.mk fcap ++ "%款项"
         amountDue := A * ((parseDigits fcap : ℚ) / 100)
         dueDate := D - 1 }] :=
  calc_split_eval pm A D dcap fcap hd hf

/-- Witness for C1 at the concrete method 定金30%+尾款70%, amount 1000,
reference day 20000. -/
theorem C1_split_expansion_wit :
    calculatePaymentTasks "定金30%+尾款70%" 1000 20000 =
      [{ taskType := "定金"
         description := "预付30%款项"
         amountDue := 1000 * ((parseDigits ['3', '0'] : ℚ) / 100)
         dueDate := 19993 },
       { taskType := "尾款"
         description := "支付剩余70%款项"
         amountDue := 1000 * ((parseDigits ['7', '0'] : ℚ) / 100)
         dueDate := 19999 }] :=
  C1_split_expansion "定金30%+尾款70%" 1000 20000 ['3', '0'] ['7', '0']
    (by decide) (by decide)

/-- C9: for every payment-method string containing the full-payment marker
全款 but not matching the split pattern (it does not contain both 定金 and
尾款), every amount `A` and reference date `D`, the expander returns
exactly one task of amount `A`, due 3 days before `D`, with the fixed
description. -/
theorem C9_full_payment (pm : String) (A : ℚ) (D : Int)
    (hfull : includesSub fullMk pm.toList = true)
    (hnotsplit : ¬(includesSub depositMk pm.toList = true ∧
      includesSub finalMk pm.toList = true)) :
    calculatePaymentTasks pm A D =
      [{ taskType := "全款", description := "一次性支付全款",
         amountDue := A, dueDate := D - 3 }] := by
  have hsplit : (includesSub depositMk pm.toList &&
      includesSub finalMk pm.toList) = false := by
    cases hdep : includesSub depositMk pm.toList <;>
      cases hfin : includesSub finalMk pm.toList <;> simp_all
  rw [calculatePaymentTasks, hsplit, hfull]
  simp

/-- Witness for C9 at the concrete method 全款, amount 500, reference
day 100. -/
theorem C9_full_payment_wit :
    calculatePaymentTasks "全款" 500 100 =
      [{ taskType := "全款", description := "一次性支付全款",
         amountDue := 500, dueDate := 97 }] :=
  C9_full_payment "全款" 500 100 (by decide) (by decide)

/-- C8: the expander is total and never partial: every input yields either
the empty sequence, exactly a deposit/final pair, or exactly one
full-payment task; a string with both split markers whose percentages fail
to parse yields the empty sequence even when the full-payment marker
co-occurs; a string matching neither pattern yields the empty sequence. -/
theorem C8_expander_totality (pm : String) (A : ℚ) (D : Int) :
    (calculatePaymentTasks pm A D = [] ∨
      (∃ t1 t2, calculatePaymentTasks pm A D = [t1, t2] ∧
        t1.taskType = "定金" ∧ t2.taskType = "尾款") ∨
      (∃ t, calculatePaymentTasks pm A D = [t] ∧ t.taskType = "全款")) ∧
    (includesSub depositMk pm.toList = true →
      includesSub finalMk pm.toList = true →
      (findPercent depositMk pm.toList = none ∨
        findPercent finalMk pm.toList = none) →
      calculatePaymentTasks pm A D = []) ∧
    (¬(includesSub depositMk pm.toList = true ∧
        includesSub finalMk pm.toList = true) →
      includesSub fullMk pm.toList = false →
      calculatePaymentTasks pm A D = []) := by
  refine ⟨?_, ?_, ?_⟩
  · rw [calculatePaymentTasks]
    split
    · split
      · exact Or.inr (Or.inl ⟨_, _, rfl, rfl, rfl⟩)
      · exact Or.inl rfl
    · split
      · exact Or.inr (Or.inr ⟨_, rfl, rfl⟩)
      · exact Or.inl rfl
  · intro h1 h2 h3
    rw [calculatePaymentTasks, h1, h2, if_pos (by simp : (true && true) = true)]
    rcases h3 with h3 | h3
    · rw [h3]
    · cases hother : findPercent depositMk pm.toList with
      | none => rfl
      | some v => rw [h3]
  · intro hns hfull
    have hsplit : (includesSub depositMk pm.toList &&
        includesSub finalMk pm.toList) = false := by
      cases hdep : includesSub depositMk pm.toList <;>
        cases hfin : includesSub finalMk pm.toList <;> simp_all
    rw [calculatePaymentTasks, hsplit, hfull]
    simp

/-- Witness for C8: a string with both split markers whose deposit
percentage fails to parse, together with a co-occurring full-payment
marker, produces the empty sequence. -/
theorem C8_expander_totality_wit :
    calculatePaymentTasks "定金X%+尾款50%+全款" 80 10 = [] :=
  (C8_expander_totality "定金X%+尾款50%+全款" 80 10).2.1 (by decide) (by decide)
    (Or.inl (by decide))

/-- C4 counterexample: the method 定金30%+尾款50% matches the split
pattern with both percentages present and valid, yet the two generated
amounts sum to 80, not to the unit price 100 — the claim fails whenever
the two percentages do not sum to 100 (which the expander never checks). -/
theorem C4_sum_counterexample :
    findPercent depositMk ("定金30%+尾款50%").toList = some ['3', '0'] ∧
    findPercent finalMk ("定金30%+尾款50%").toList = some ['5', '0'] ∧
    ((calculatePaymentTasks "定金30%+尾款50%" 100 0).map
      PaymentTask.amountDue).sum ≠ 100 := by
  refine ⟨by decide, by decide, ?_⟩
  rw [calc_split_eval "定金30%+尾款50%" 100 0 ['3', '0'] ['5', '0']
    (by decide) (by decide)]
  have h3 : parseDigits ['3', '0'] = 30 := by decide
  have h5 : parseDigits ['5', '0'] = 50 := by decide
  rw [List.map_cons, List.map_cons, List.map_nil, h3, h5]
  norm_num

/-- C4 as amended: whenever the two parsed percentages sum to 100, the
deposit amount plus the final-payment amount equals the product's unit
price exactly (amounts are modelled as exact rationals, so the
floating-point tolerance of the claim collapses to equality). -/
theorem C4_amended_pair_sum (pm : String) (A : ℚ) (D : Int)
    (dcap fcap : List Char)
    (hd : findPercent depositMk pm.toList = some dcap)
    (hf : findPercent finalMk pm.toList = some fcap)
    (hsum : parseDigits dcap + parseDigits fcap = 100) :
    ((calculatePaymentTasks pm A D).map PaymentTask.amountDue).sum = A := by
  rw [calc_split_eval pm A D dcap fcap hd hf]
  rw [List.map_cons, List.map_cons, List.map_nil, List.sum_cons,
    List.sum_cons, List.sum_nil]
  have h100 : (parseDigits dcap : ℚ) + (parseDigits fcap : ℚ) = 100 := by
    exact_mod_cast congrArg (Nat.cast (R := ℚ)) hsum
  linear_combination (A / 100) * h100

/-- Witness for the amended C4 at the concrete method 定金40%+尾款60%
and unit price 200. -/
theorem C4_amended_pair_sum_wit :
    ((calculatePaymentTasks "定金40%+尾款60%" 200 0).map
      PaymentTask.amountDue).sum = 200 :=
  C4_amended_pair_sum "定金40%+尾款60%" 200 0 ['4', '0'] ['6', '0']
    (by decide) (by decide) (by decide)

/-- C5: the task-identifier scheme
`TASK-${Date.now()}-${index}-${taskIndex}` restarts `index` at 0 for every
supplier basket, so one synthesizer call that produces bookings for two
suppliers in the same clock millisecond gives both first tasks the same
identifier — store-wide identifier uniqueness fails on the order O1 with
services S1 (supplier 甲) and S2 (supplier 乙), both 全款, at clock
value 7. -/
theorem C5_duplicate_task_ids :
    ((generatePaymentBookings "O1" [wOrder] [wProdU1, wProdU2] [] 7).map
      (fun b => b.paymentTasks.map (fun t => t.taskId))) =
      [["TASK-7-0-0"], ["TASK-7-0-0"]] ∧
    ¬ ((generatePaymentBookings "O1" [wOrder] [wProdU1, wProdU2] [] 7).flatMap
      (fun b => b.paymentTasks.map (fun t => t.taskId))).Nodup := by
  constructor <;> decide

/-- The grouping loop is insensitive to unresolved service names: folding
the names with the skip branch equals grouping the resolved products. -/
lemma buildBaskets_eq_group (allProducts : List Product) :
    ∀ (names : List String) (costs : List (String × Basket)),
      buildBaskets allProducts costs names =
        groupProducts costs (resolveServices names allProducts) := by
  intro names
  induction names with
  | nil => intro costs; rfl
  | cons n ns ih =>
    intro costs
    cases hp : findProductByName n allProducts with
    | none =>
      have hstep : buildBaskets allProducts costs (n :: ns) =
          buildBaskets allProducts costs ns := by
        rw [buildBaskets, hp]
      have hres : resolveServices (n :: ns) allProducts =
          resolveServices ns allProducts := by
        rw [resolveServices, resolveServices, List.filterMap_cons, hp]
      rw [hstep, hres]
      exact ih costs
    | some p =>
      have hstep : buildBaskets allProducts costs (n :: ns) =
          buildBaskets allProducts (addToBasket costs p.supplierName p) ns := by
        rw [buildBaskets, hp]
      have hres : resolveServices (n :: ns) allProducts =
          p :: resolveServices ns allProducts := by
        rw [resolveServices, resolveServices, List.filterMap_cons, hp]
      rw [hstep, hres, groupProducts]
      exact ih _

/-- Grouping products that all belong to supplier `s` into a store that
already holds exactly the basket of `s` extends that basket in place:
the totals add up and the items are appended in order. -/
lemma groupProducts_single (s : String) :
    ∀ (ps : List Product) (b : Basket), (∀ p ∈ ps, p.supplierName = s) →
      groupProducts [(s, b)] ps =
        [(s, { total := b.total + (ps.map Product.unitPrice).sum,
               items := b.items ++ ps })] := by
  intro ps
  induction ps with
  | nil => intro b _; simp [groupProducts]
  | cons p ps ih =>
    intro b hall
    have hps : p.supplierName = s := hall p (by simp)
    rw [groupProducts, hps]
    have haddb : addToBasket [(s, b)] s p =
        [(s, { total := b.total + p.unitPrice, items := b.items ++ [p] })] := by
      simp [addToBasket]
    rw [haddb, ih _ (fun q hq => hall q (by simp [hq]))]
    simp [add_assoc]

/-- Grouping a non-empty single-supplier product list from the empty store
yields exactly one basket: total is the sum of unit prices, items are the
products in order. -/
lemma groupProducts_single_supplier (s : String) (ps : List Product)
    (hne : ps ≠ []) (hall : ∀ p ∈ ps, p.supplierName = s) :
    groupProducts [] ps =
      [(s, { total := (ps.map Product.unitPrice).sum, items := ps })] := by
  cases ps with
  | nil => exact absurd rfl hne
  | cons p ps =>
    have hps : p.supplierName = s := hall p (by simp)
    rw [groupProducts, hps]
    have hadd : addToBasket [] s p =
        [(s, { total := p.unitPrice, items := [p] })] := by
      simp [addToBasket]
    rw [hadd, groupProducts_single s ps _ (fun q hq => hall q (by simp [hq]))]
    simp

/-- Attaching identifiers and lifecycle fields leaves the expander fields
of each task unchanged. -/
lemma attachIds_map_core (now idx : Nat) :
    ∀ (k : Nat) (ts : List PaymentTask),
      (attachIds now idx k ts).map taskCore = ts := by
  intro k ts
  induction ts generalizing k with
  | nil => rfl
  | cons t ts ih => simp [attachIds, taskCore, ih]

/-- The task list a basket expands to is, expander-field-wise, the
concatenation in product order of each product's own expansion with its
own unit price. -/
lemma expandBasketTasks_map_core (now : Nat) (refDate : Int) :
    ∀ (idx : Nat) (ps : List Product),
      (expandBasketTasks now refDate idx ps).map taskCore =
        ps.flatMap (fun p =>
          calculatePaymentTasks p.paymentMethod p.unitPrice refDate) := by
  intro idx ps
  induction ps generalizing idx with
  | nil => rfl
  | cons p ps ih =>
    rw [expandBasketTasks, List.map_append, attachIds_map_core,
      List.flatMap_cons, ih]

/-- C2: for every order found in the store whose service list resolves to
two or more products all owned by supplier `s`, the synthesizer returns
exactly one booking: its total amount is the sum of the resolved unit
prices, its cost items have one entry per contributing product, and its
task list is, expander-field-wise, the concatenation in product order of
each product's independently-expanded tasks, each expanded with its own
unit price. -/
theorem C2_single_supplier_booking (oid : String) (orders : List Order)
    (prods : List Product) (sups : List Supplier) (now : Nat) (ord : Order)
    (s : String) (ps : List Product)
    (hord : findOrderById oid orders = some ord)
    (hres : resolveServices (splitComma ord.services) prods = ps)
    (hsup : ∀ p ∈ ps, p.supplierName = s)
    (hlen : 2 ≤ ps.length) :
    generatePaymentBookings oid orders prods sups now =
      [{ bookingId := "BOOK-" ++ toString now ++ "-" ++ s
         supplierName := s
         supplierType := supplierTypeOf s sups
         relatedCustomerOrder := ord.orderName
         bookingStatus := "InProgress"
         costItems := ps.map (fun p =>
           { itemName := p.serviceName, amount := p.unitPrice,
             invoiceSource := s })
         totalAmount := (ps.map Product.unitPrice).sum
         paymentTasks := expandBasketTasks now ord.departureDate 0 ps }] ∧
    (expandBasketTasks now ord.departureDate 0 ps).map taskCore =
      ps.flatMap (fun p =>
        calculatePaymentTasks p.paymentMethod p.unitPrice ord.departureDate) := by
  have hne : ps ≠ [] := by
    rintro rfl
    simp at hlen
  constructor
  · have hgen : generatePaymentBookings oid orders prods sups now =
        convertToBookingsFormat
          (buildBaskets prods [] (splitComma ord.services)) ord sups now := by
      rw [generatePaymentBookings, hord]
    rw [hgen, buildBaskets_eq_group, hres,
      groupProducts_single_supplier s ps hne hsup]
    rfl
  · exact expandBasketTasks_map_core now ord.departureDate 0 ps

/-- Witness for C2: order O1 with services S1, S2, both of supplier Acme,
synthesized at clock value 3. -/
theorem C2_single_supplier_booking_wit :
    generatePaymentBookings "O1" [wOrder] [wProdS1, wProdS2] [] 3 =
      [{ bookingId := "BOOK-" ++ toString 3 ++ "-" ++ "Acme"
         supplierName := "Acme"
         supplierType := supplierTypeOf "Acme" []
         relatedCustomerOrder := wOrder.orderName
         bookingStatus := "InProgress"
         costItems := [wProdS1, wProdS2].map (fun p =>
           { itemName := p.serviceName, amount := p.unitPrice,
             invoiceSource := "Acme" })
         totalAmount := ([wProdS1, wProdS2].map Product.unitPrice).sum
         paymentTasks :=
           expandBasketTasks 3 wOrder.departureDate 0 [wProdS1, wProdS2] }] ∧
    (expandBasketTasks 3 wOrder.departureDate 0 [wProdS1, wProdS2]).map
        taskCore =
      [wProdS1, wProdS2].flatMap (fun p =>
        calculatePaymentTasks p.paymentMethod p.unitPrice
          wOrder.departureDate) :=
  C2_single_supplier_booking "O1" [wOrder] [wProdS1, wProdS2] [] 3 wOrder
    "Acme" [wProdS1, wProdS2] (by decide) (by decide) (by decide) (by decide)

/-- C3: when the order identifier resolves to no order, the synthesizer
returns the empty sequence (and, being a total function, raises nothing);
when it does resolve, the result is computed from the resolved products
only — `resolveServices` drops every service name `findProductByName`
cannot resolve, so unresolved names are skipped and synthesis continues
with the remaining services. -/
theorem C3_unknown_order_and_skip (oid : String) (orders : List Order)
    (prods : List Product) (sups : List Supplier) (now : Nat) :
    (findOrderById oid orders = none →
      generatePaymentBookings oid orders prods sups now = []) ∧
    (∀ ord, findOrderById oid orders = some ord →
      generatePaymentBookings oid orders prods sups now =
        convertToBookingsFormat
          (groupProducts [] (resolveServices (splitComma ord.services) prods))
          ord sups now) := by
  constructor
  · intro h
    rw [generatePaymentBookings, h]
  · intro ord h
    have hgen : generatePaymentBookings oid orders prods sups now =
        convertToBookingsFormat
          (buildBaskets prods [] (splitComma ord.services)) ord sups now := by
      rw [generatePaymentBookings, h]
    rw [hgen, buildBaskets_eq_group]

/-- Witness for C3: the unknown identifier O404 yields no bookings, and
for an order naming one known and one unknown service the synthesis equals
the synthesis over the resolved products alone. -/
theorem C3_unknown_order_and_skip_wit :
    generatePaymentBookings "O404" [wOrder] [wProdS1, wProdS2] [] 3 = [] ∧
    generatePaymentBookings "O1" [wOrderSkip] [wProdS1] [] 3 =
      convertToBookingsFormat
        (groupProducts []
          (resolveServices (splitComma wOrderSkip.services) [wProdS1]))
        wOrderSkip [] 3 :=
  ⟨(C3_unknown_order_and_skip "O404" [wOrder] [wProdS1, wProdS2] [] 3).1
      (by decide),
   (C3_unknown_order_and_skip "O1" [wOrderSkip] [wProdS1] [] 3).2 wOrderSkip
      (by decide)⟩

/-- The first-match task update finds nothing exactly when no task of the
list carries the identifier. -/
lemma updateFirstTask_none_iff (taskId : String) (f : StoredTask → StoredTask) :
    ∀ ts : List StoredTask,
      updateFirstTask taskId f ts = none ↔ ∀ t ∈ ts, t.taskId ≠ taskId := by
  intro ts
  induction ts with
  | nil => simp [updateFirstTask]
  | cons t ts ih =>
    by_cases h : t.taskId = taskId
    · simp [updateFirstTask, h]
    · have hb : (t.taskId == taskId) = false := by simp [h]
      cases hrec : updateFirstTask taskId f ts with
      | some ts2 => simp [updateFirstTask, hb, hrec, h, ← ih]
      | none =>
        simp [updateFirstTask, hb, hrec, h]
        exact ih.mp hrec

/-- A successful first-match task update splits the list at the first
matching task and applies `f` to it alone. -/
lemma updateFirstTask_some (taskId : String) (f : StoredTask → StoredTask) :
    ∀ {ts ts' : List StoredTask}, updateFirstTask taskId f ts = some ts' →
      ∃ tpre t tpost, ts = tpre ++ t :: tpost ∧
        ts' = tpre ++ f t :: tpost ∧ t.taskId = taskId ∧
        ∀ t' ∈ tpre, t'.taskId ≠ taskId := by
  intro ts
  induction ts with
  | nil => intro ts' h; simp [updateFirstTask] at h
  | cons t ts ih =>
    intro ts' h
    by_cases hid : t.taskId = taskId
    · have hb : (t.taskId == taskId) = true := by simp [hid]
      rw [updateFirstTask, if_pos hb] at h
      exact ⟨[], t, ts, by simp, by simp [← Option.some_inj.mp h], hid,
        by simp⟩
    · have hb : (t.taskId == taskId) = false := by simp [hid]
      rw [updateFirstTask, hb] at h
      simp only [Bool.false_eq_true, if_false] at h
      cases hrec : updateFirstTask taskId f ts with
      | none => rw [hrec] at h; simp at h
      | some ts2 =>
        rw [hrec] at h
        simp only [Option.some_inj] at h
        obtain ⟨tpre, t0, tpost, h1, h2, h3, h4⟩ := ih hrec
        exact ⟨t :: tpre, t0, tpost, by simp [h1], by simp [← h, h2], h3,
          by simpa [hid] using h4⟩

/-- Converse: the first-match task update on a list whose first matching
task is `t` (everything before it misses) rewrites exactly `t`. -/
lemma updateFirstTask_app (taskId : String) (f : StoredTask → StoredTask)
    (t : StoredTask) (ht : t.taskId = taskId) :
    ∀ (tpre tpost : List StoredTask), (∀ t' ∈ tpre, t'.taskId ≠ taskId) →
      updateFirstTask taskId f (tpre ++ t :: tpost) =
        some (tpre ++ f t :: tpost) := by
  intro tpre
  induction tpre with
  | nil =>
    intro tpost _
    have hb : (t.taskId == taskId) = true := by simp [ht]
    simp [updateFirstTask, hb]
  | cons t' tpre ih =>
    intro tpost hpre
    have hb : (t'.taskId == taskId) = false := by
      simp [hpre t' (by simp)]
    rw [List.cons_append, updateFirstTask, hb]
    simp only [Bool.false_eq_true, if_false]
    rw [ih tpost (fun q hq => hpre q (by simp [hq]))]
    rfl

/-- The booking scan is the identity when no task of any booking matches. -/
lemma updateTaskInBookings_miss (taskId : String) (f : StoredTask → StoredTask) :
    ∀ st : List Booking,
      (∀ b ∈ st, ∀ t ∈ b.paymentTasks, t.taskId ≠ taskId) →
      updateTaskInBookings taskId f st = st := by
  intro st
  induction st with
  | nil => intro _; rfl
  | cons b bs ih =>
    intro h
    have hnone : updateFirstTask taskId f b.paymentTasks = none :=
      (updateFirstTask_none_iff taskId f b.paymentTasks).mpr
        (fun t ht => h b (by simp) t ht)
    rw [updateTaskInBookings, hnone, ih (fun b' hb' => h b' (by simp [hb']))]

/-- The booking scan rewrites exactly the first matching task of the first
booking that has one, leaving every other field untouched. -/
lemma updateTaskInBookings_app (taskId : String) (f : StoredTask → StoredTask)
    (b : Booking) (tpre tpost : List StoredTask) (t : StoredTask)
    (hb : b.paymentTasks = tpre ++ t :: tpost)
    (htpre : ∀ t' ∈ tpre, t'.taskId ≠ taskId) (ht : t.taskId = taskId) :
    ∀ (pre post : List Booking),
      (∀ b' ∈ pre, ∀ t' ∈ b'.paymentTasks, t'.taskId ≠ taskId) →
      updateTaskInBookings taskId f (pre ++ b :: post) =
        pre ++ { b with paymentTasks := tpre ++ f t :: tpost } :: post := by
  intro pre
  induction pre with
  | nil =>
    intro post _
    have hsome : updateFirstTask taskId f b.paymentTasks =
        some (tpre ++ f t :: tpost) := by
      rw [hb]; exact updateFirstTask_app taskId f t ht tpre tpost htpre
    rw [List.nil_append, updateTaskInBookings, hsome, List.nil_append]
  | cons b' pre ih =>
    intro post hpre
    have hnone : updateFirstTask taskId f b'.paymentTasks = none :=
      (updateFirstTask_none_iff taskId f b'.paymentTasks).mpr
        (fun q hq => hpre b' (by simp) q hq)
    rw [List.cons_append, updateTaskInBookings, hnone,
      ih post (fun q hq => hpre q (by simp [hq]))]
    rfl

/-- Every booking-scan result is either the unchanged store or the store
with exactly one matching task rewritten by `f`. -/
lemma updateTaskInBookings_cases (taskId : String)
    (f : StoredTask → StoredTask) :
    ∀ st : List Booking,
      updateTaskInBookings taskId f st = st ∨
      ∃ pre b post tpre t tpost,
        st = pre ++ b :: post ∧ b.paymentTasks = tpre ++ t :: tpost ∧
        t.taskId = taskId ∧
        updateTaskInBookings taskId f st =
          pre ++ { b with paymentTasks := tpre ++ f t :: tpost } :: post := by
  intro st
  induction st with
  | nil => exact Or.inl rfl
  | cons b bs ih =>
    cases hfb : updateFirstTask taskId f b.paymentTasks with
    | some ts' =>
      obtain ⟨tpre, t, tpost, h1, h2, h3, _⟩ := updateFirstTask_some taskId f hfb
      refine Or.inr ⟨[], b, bs, tpre, t, tpost, by simp, h1, h3, ?_⟩
      rw [updateTaskInBookings, hfb, h2]
      rfl
    | none =>
      rcases ih with ih | ⟨pre, b0, post, tpre, t, tpost, h1, h2, h3, h4⟩
      · refine Or.inl ?_
        rw [updateTaskInBookings, hfb, ih]
      · refine Or.inr ⟨b :: pre, b0, post, tpre, t, tpost, by simp [h1], h2,
          h3, ?_⟩
        rw [updateTaskInBookings, hfb, h4]
        rfl

/-- Re-updating after a first update that preserves task identifiers finds
the same task again, so the two first-match updates compose. -/
lemma updateFirstTask_compose (taskId : String)
    (f1 f2 : StoredTask → StoredTask) (hid : ∀ t, (f1 t).taskId = t.taskId) :
    ∀ {ts ts' : List StoredTask}, updateFirstTask taskId f1 ts = some ts' →
      updateFirstTask taskId f2 ts' =
        updateFirstTask taskId (fun t => f2 (f1 t)) ts := by
  intro ts
  induction ts with
  | nil => intro ts' h; simp [updateFirstTask] at h
  | cons t ts ih =>
    intro ts' h
    by_cases hidt : t.taskId = taskId
    · have hb : (t.taskId == taskId) = true := by simp [hidt]
      rw [updateFirstTask, if_pos hb] at h
      have hts' : ts' = f1 t :: ts := (Option.some_inj.mp h).symm
      subst hts'
      have hb1 : ((f1 t).taskId == taskId) = true := by simp [hid t, hidt]
      rw [updateFirstTask, if_pos hb1, updateFirstTask, if_pos hb]
    · have hb : (t.taskId == taskId) = false := by simp [hidt]
      rw [updateFirstTask, hb] at h
      simp only [Bool.false_eq_true, if_false] at h
      cases hrec : updateFirstTask taskId f1 ts with
      | none => rw [hrec] at h; simp at h
      | some ts2 =>
        rw [hrec] at h
        simp only [Option.some_inj] at h
        subst h
        simp only [updateFirstTask, hb, Bool.false_eq_true, if_false]
        rw [ih hrec]

/-- Unfolding equation of the booking scan on a non-empty store. -/
lemma updateTaskInBookings_cons (taskId : String) (f : StoredTask → StoredTask)
    (b : Booking) (bs : List Booking) :
    updateTaskInBookings taskId f (b :: bs) =
      match updateFirstTask taskId f b.paymentTasks with
      | some ts => { b with paymentTasks := ts } :: bs
      | none => b :: updateTaskInBookings taskId f bs := rfl

/-- Two booking scans compose when the first one preserves task
identifiers. -/
lemma updateTaskInBookings_compose (taskId : String)
    (f1 f2 : StoredTask → StoredTask) (hid : ∀ t, (f1 t).taskId = t.taskId) :
    ∀ st : List Booking,
      updateTaskInBookings taskId f2 (updateTaskInBookings taskId f1 st) =
        updateTaskInBookings taskId (fun t => f2 (f1 t)) st := by
  intro st
  induction st with
  | nil => rfl
  | cons b bs ih =>
    cases hfb : updateFirstTask taskId f1 b.paymentTasks with
    | some ts' =>
      have hcomp := updateFirstTask_compose taskId f1 f2 hid hfb
      rw [updateTaskInBookings_cons, hfb, updateTaskInBookings_cons]
      simp only
      rw [hcomp]
      cases hcc : updateFirstTask taskId (fun t => f2 (f1 t)) b.paymentTasks with
      | none =>
        have hclean := (updateFirstTask_none_iff taskId _ b.paymentTasks).mp hcc
        have hnone := (updateFirstTask_none_iff taskId f1 b.paymentTasks).mpr
          hclean
        rw [hfb] at hnone
        cases hnone
      | some ts2 =>
        rw [updateTaskInBookings_cons, hcc]
    | none =>
      have hclean := (updateFirstTask_none_iff taskId f1 b.paymentTasks).mp hfb
      have h2 : updateFirstTask taskId f2 b.paymentTasks = none :=
        (updateFirstTask_none_iff taskId f2 b.paymentTasks).mpr hclean
      have hcc : updateFirstTask taskId (fun t => f2 (f1 t)) b.paymentTasks =
          none :=
        (updateFirstTask_none_iff taskId _ b.paymentTasks).mpr hclean
      rw [updateTaskInBookings_cons, hfb, updateTaskInBookings_cons, h2,
        updateTaskInBookings_cons, hcc, ih]

/-- C7: mark-paid (a) leaves the store unchanged, raising nothing, when no
task matches; (b) rewrites exactly the first matching task, setting its
status to Paid and stamping its actual payment date with the operation's
execution date `d` (its due date is untouched); and (c) is not idempotent:
re-marking re-stamps, so marking with `d` and then `d2` is the same as
marking once with `d2`. -/
theorem C7_markAsPaid_spec (taskId : String) (d : Int) (st : List Booking) :
    ((∀ b ∈ st, ∀ t ∈ b.paymentTasks, t.taskId ≠ taskId) →
      markAsPaid taskId d st = st) ∧
    (∀ pre b post tpre t tpost,
      st = pre ++ b :: post →
      (∀ b' ∈ pre, ∀ t' ∈ b'.paymentTasks, t'.taskId ≠ taskId) →
      b.paymentTasks = tpre ++ t :: tpost →
      (∀ t' ∈ tpre, t'.taskId ≠ taskId) →
      t.taskId = taskId →
      markAsPaid taskId d st =
        pre ++ { b with paymentTasks := tpre ++ paidUpdate d t :: tpost } ::
          post) ∧
    (∀ d2, markAsPaid taskId d2 (markAsPaid taskId d st) =
      markAsPaid taskId d2 st) := by
  refine ⟨?_, ?_, ?_⟩
  · exact fun h => updateTaskInBookings_miss taskId _ st h
  · intro pre b post tpre t tpost h1 h2 h3 h4 h5
    subst h1
    exact updateTaskInBookings_app taskId _ b tpre tpost t h3 h4 h5 pre post h2
  · intro d2
    exact updateTaskInBookings_compose taskId (paidUpdate d) (paidUpdate d2)
      (fun t => rfl) st

/-- Witness for C7 clause (b): marking T2 paid in a two-booking store
rewrites exactly that task of the second booking. -/
theorem C7_markAsPaid_spec_wit :
    markAsPaid "T2" 123 [wBooking1, wBooking2] =
      [wBooking1,
       { wBooking2 with paymentTasks := [paidUpdate 123 wTask2] }] :=
  (C7_markAsPaid_spec "T2" 123 [wBooking1, wBooking2]).2.1 [wBooking1]
    wBooking2 [] [] wTask2 [] rfl (by decide) (by decide) (by decide) rfl

/-- C10: each lifecycle operation either leaves the store unchanged or
rewrites exactly one matching task — mark-paid touching only that task's
`paymentStatus` and `actualPaymentDate`, attach-invoice touching only its
`invoiceLink` — while every other field of that task, every other task,
and every booking-level field of every booking are preserved (the explicit
record updates in the conclusion change nothing else). -/
theorem C10_frame_effect (taskId : String) (d : Int) (link : Option String)
    (st : List Booking) :
    (markAsPaid taskId d st = st ∨
      ∃ pre b post tpre t tpost,
        st = pre ++ b :: post ∧ b.paymentTasks = tpre ++ t :: tpost ∧
        t.taskId = taskId ∧
        markAsPaid taskId d st =
          pre ++ { b with paymentTasks := tpre ++ paidUpdate d t :: tpost } ::
            post) ∧
    (addInvoiceLink taskId link st = st ∨
      ∃ pre b post tpre t tpost l,
        link = some l ∧ st = pre ++ b :: post ∧
        b.paymentTasks = tpre ++ t :: tpost ∧ t.taskId = taskId ∧
        addInvoiceLink taskId link st =
          pre ++ { b with paymentTasks := tpre ++ linkUpdate l t :: tpost } ::
            post) := by
  constructor
  · exact updateTaskInBookings_cases taskId _ st
  · cases link with
    | none => exact Or.inl rfl
    | some l =>
      by_cases hl : l = ""
      · exact Or.inl (by simp [addInvoiceLink, hl])
      · have hb : (l == "") = false := by simp [hl]
        have hdef : addInvoiceLink taskId (some l) st =
            updateTaskInBookings taskId (linkUpdate l) st := by
          simp [addInvoiceLink, hb]
        rcases updateTaskInBookings_cases taskId (linkUpdate l) st with h |
            ⟨pre, b, post, tpre, t, tpost, h1, h2, h3, h4⟩
        · exact Or.inl (hdef.trans h)
        · exact Or.inr ⟨pre, b, post, tpre, t, tpost, l, rfl, h1, h2, h3,
            hdef.trans h4⟩

/-- C6: the ad-hoc creation path rejects any submission whose supplier
name, description, amount, or due date is empty — the form's `required`
validation (and, for three of the fields, the handler's own guard) stops
it and the store is left without any new booking or task. -/
theorem C6_reject_empty_fields (i : TaskInput) (now : Nat) (st : List Booking)
    (h : i.supplierName = "" ∨ i.description = "" ∨ i.amountDue = none ∨
      i.dueDate = none) :
    handleSubmit i now st = st := by
  have hreq : requiredOk i = false := by
    rcases h with h | h | h | h <;> simp [requiredOk, h]
  rw [handleSubmit, hreq]
  simp

/-- Witness for C6: a submission with an empty description (all other
fields filled) leaves the store unchanged. -/
theorem C6_reject_empty_fields_wit :
    handleSubmit
      { supplierName := "甲", supplierType := "酒店",
        relatedCustomerOrder := "O1", description := "",
        amountDue := some 5, dueDate := some 10, taskType := "定金" } 3
      [wBooking1] = [wBooking1] :=
  C6_reject_empty_fields _ 3 [wBooking1] (Or.inr (Or.inl rfl))
